import Mathlib

/-!
Verification of the OCPP virtual charge point core (`src/vcp.ts`,
`src/v16/transactionManager.ts`) against its natural-language design
specification.

The embedding is shallow: the TypeScript classes become Lean structures, the
mutating methods become pure functions from state to state, exceptions become
an explicit `Option VcpError` in each outcome record (state mutation performed
before a `throw` is preserved, exactly as in JS exception semantics), and
observable side effects (map insertions, frames handed to the websocket,
handler invocations, `process.exit`) are recorded as an event list.

The payload type of OCPP messages is `any` in the source, so definitions are
parametrised by a type `P`; the JSON-schema validator
(`jsonSchemaValidator.ts`, an external pass/fail oracle per the spec) is a
boolean-valued parameter.  The admin-mirror broadcasts and the display-state
bookkeeping (`updateStateFromMessage` and friends) are pure observers declared
out of scope by the spec (§1) and are omitted from the embedding; they touch
neither the ledger nor the control flow of the paths verified here.
-/

namespace OcppVcp

/-- An outbound OCPP call, from `ocppMessage.ts` (`OcppCall`): message id,
action name, and a payload of the connection's payload type. -/
structure OcppCall (P : Type) where
  messageId : String
  action : String
  payload : P
  deriving Repr, DecidableEq

/-- A decoded inbound wire frame, discriminated as in `_onMessage`:
leading `2` is a call, `3` a call result, `4` a call error, anything else is
unrecognized. -/
inductive OcppFrame (P : Type) where
  | call (messageId action : String) (payload : P)
  | callResult (messageId : String) (payload : P)
  | callError (messageId errorCode errorDescription : String) (details : P)
  | unrecognized (t : Nat)
  deriving Repr, DecidableEq

/-- The errors the Connection paths can raise.  Each constructor corresponds
to a `throw new Error(...)` in `vcp.ts` or to an error of the ledger
contract (§4.2, §7 of the spec). -/
inductive VcpError where
  | wsNotInitialized
  | duplicateCallId (messageId : String)
  | schemaViolation (action : String)
  | unknownCorrelation (messageId : String)
  | unrecognizedType (t : Nat)
  | closeWithoutOpen
  deriving Repr, DecidableEq

/-- Observable effects of the Connection paths, in program order. -/
inductive VcpEvent (P : Type) where
  | enqueued (messageId : String)
  | transmitted (frame : OcppFrame P)
  | handleCall (messageId action : String) (payload : P)
  | handleCallResult (original : OcppCall P) (messageId : String) (payload : P)
  | handleCallError (messageId errorCode errorDescription : String) (details : P)
  | wsClosed
  | adminWsClosed
  | processExit (code : Nat)
  deriving Repr, DecidableEq

/-- Modelled from the spec: the Pending-Call Ledger (`ocppOutbox.ts`) is not
among the provided source files, only its callers are.  Per §4.2 it is a
mapping from call id to call.  Extensional map semantics over an association
list. -/
structure OcppOutbox (P : Type) where
  entries : List (String × OcppCall P)
  deriving Repr, DecidableEq

/-- Modelled from the spec: `get(id)` is "read-only inspection … without
consuming" (§4.2); §9 likewise observes that in the source, responses "are
looked up but not shown being removed". -/
def OcppOutbox.get {P : Type} (o : OcppOutbox P) (messageId : String) :
    Option (OcppCall P) :=
  (o.entries.find? (fun p => p.1 = messageId)).map Prod.snd

/-- Modelled from the spec: `enqueue(call)` "inserts, overwriting is
forbidden (duplicate id is a `DuplicateCallId` error)" (§4.2). -/
def OcppOutbox.enqueue {P : Type} (o : OcppOutbox P) (c : OcppCall P) :
    Except VcpError (OcppOutbox P) :=
  match o.get c.messageId with
  | some _ => .error (.duplicateCallId c.messageId)
  | none => .ok ⟨(c.messageId, c) :: o.entries⟩

/-- Modelled from the spec: `takeById(id)` "removes and returns the entry
atomically" (§4.2); `none` is the spec's `NotFound`. -/
def OcppOutbox.takeById {P : Type} (o : OcppOutbox P) (messageId : String) :
    Option (OcppCall P × OcppOutbox P) :=
  (o.get messageId).map
    (fun c => (c, ⟨o.entries.filter (fun p => ¬ p.1 = messageId)⟩))

/-- The mutable fields of the `VCP` class that the verified paths read or
write: the websocket (present after `connect`, absent before and after
`close`), the ledger, and the `isFinishing` flag.  `ocppVersion` is the
configured protocol version (fixed for the connection's lifetime).  The
admin websocket and display state are omitted (see the file comment). -/
structure VCPState (P : Type) where
  ws : Option Unit
  outbox : OcppOutbox P
  isFinishing : Bool
  ocppVersion : String
  deriving Repr, DecidableEq

/-- Result of one Connection operation: the exception that escaped (if any),
the state as left behind (mutations before a throw persist), and the emitted
events in order. -/
structure VcpOutcome (P : Type) where
  error : Option VcpError
  state : VCPState P
  events : List (VcpEvent P)
  deriving Repr, DecidableEq

/-- The schema oracle: `validateOcppRequest` / `validateOcppResponse`
keyed by (version, action), pass/fail on the payload (§6). -/
def Validator (P : Type) : Type := String → String → P → Bool

/-- Embedding of `VCP.send` (vcp.ts lines 164–197): throw if the websocket
is not initialized; enqueue into the ledger; build the `[2, id, action,
payload]` frame; validate the request (a failure throws, after the enqueue
and before the transmission, with no removal of the ledger entry); hand the
frame to the websocket.  The admin broadcast and display-state update that
follow the transmission are omitted observers. -/
def send {P : Type} (validateOcppRequest : Validator P)
    (st : VCPState P) (ocppCall : OcppCall P) : VcpOutcome P :=
  match st.ws with
  | none => ⟨some .wsNotInitialized, st, []⟩
  | some _ =>
    match st.outbox.enqueue ocppCall with
    | .error e => ⟨some e, st, []⟩
    | .ok outbox1 =>
      let st1 : VCPState P := { st with outbox := outbox1 }
      let frame : OcppFrame P :=
        .call ocppCall.messageId ocppCall.action ocppCall.payload
      if validateOcppRequest st.ocppVersion ocppCall.action ocppCall.payload
      then ⟨none, st1, [.enqueued ocppCall.messageId, .transmitted frame]⟩
      else ⟨some (.schemaViolation ocppCall.action), st1,
            [.enqueued ocppCall.messageId]⟩

/-- Embedding of `VCP._onMessage` (vcp.ts lines 248–312), after JSON decoding
of the frame.  Type 2: validate the inbound request (a failure throws with no
CallError answered) then invoke the resolved handler's `handleCall`.  Type 3:
look the id up in the ledger with the non-consuming `get`; if absent, throw
`Received CallResult for unknown messageId`; if present, validate the response
against the original action (a failure throws) and invoke `handleCallResult`.
Type 4: invoke `handleCallError` with no ledger consultation.  Any other
discriminant throws.  Broadcasts and display-state updates are omitted
observers. -/
def onMessage {P : Type} (validateOcppRequest validateOcppResponse : Validator P)
    (st : VCPState P) (frame : OcppFrame P) : VcpOutcome P :=
  match frame with
  | .call messageId action payload =>
    if validateOcppRequest st.ocppVersion action payload
    then ⟨none, st, [.handleCall messageId action payload]⟩
    else ⟨some (.schemaViolation action), st, []⟩
  | .callResult messageId payload =>
    match st.outbox.get messageId with
    | none => ⟨some (.unknownCorrelation messageId), st, []⟩
    | some enqueuedCall =>
      if validateOcppResponse st.ocppVersion enqueuedCall.action payload
      then ⟨none, st, [.handleCallResult enqueuedCall messageId payload]⟩
      else ⟨some (.schemaViolation enqueuedCall.action), st, []⟩
  | .callError messageId errorCode errorDescription details =>
    ⟨none, st, [.handleCallError messageId errorCode errorDescription details]⟩
  | .unrecognized t => ⟨some (.unrecognizedType t), st, []⟩

/-- Embedding of `VCP.close` (vcp.ts lines 234–246): throw if the websocket
was never opened (or already torn down); otherwise set `isFinishing`, close
the websocket and the admin server, delete both handles, and call
`process.exit(1)`. -/
def close {P : Type} (st : VCPState P) : VcpOutcome P :=
  match st.ws with
  | none => ⟨some .closeWithoutOpen, st, []⟩
  | some _ =>
    ⟨none, { st with isFinishing := true, ws := none },
     [.wsClosed, .adminWsClosed, .processExit 1]⟩

end OcppVcp

namespace TxnMgr

/-- Base-10 digits of a natural number, most significant first, with explicit
fuel so that evaluation is definitional.  With fuel above `n` this is the
digit string JS `Number.prototype.toString()` produces for an integral
number. -/
def natDigitsAux : Nat → Nat → List Nat
  | 0, _ => []
  | fuel + 1, n => if n < 10 then [n] else natDigitsAux fuel (n / 10) ++ [n % 10]

/-- Base-10 digit list of `n`, most significant first. -/
def natDigits (n : Nat) : List Nat := natDigitsAux (n + 1) n

/-- Embedding of JS `Number.prototype.toString()` on the natural transaction
ids: the base-10 digit characters. -/
def natToString (n : Nat) : String :=
  ⟨(natDigits n).map Nat.digitChar⟩

/-- The per-session record of `transactionManager.ts` (`TransactionState`):
transaction id, the never-updated `meterValue` field, start instant
(milliseconds since epoch, as `Date.getTime()`), connector id, and the
interval handle armed at start. -/
structure TransactionState where
  transactionId : Nat
  meterValue : Nat
  startedAt : Int
  connectorId : Nat
  meterValuesTimer : Option Nat
  deriving Repr, DecidableEq

/-- State of the `TransactionManager` plus the runtime's pool of armed
interval timers.  `transactions` embeds the `Map<string, TransactionState>`
keyed by `transactionId.toString()` with extensional map semantics;
`activeTimers` records, per armed and not-yet-cleared `setInterval` handle,
the transaction id its callback emits telemetry for; `nextHandle` makes
handles fresh. -/
structure TMState where
  transactions : List (String × TransactionState)
  activeTimers : List (Nat × Nat)
  nextHandle : Nat
  deriving Repr, DecidableEq

/-- The empty manager, as constructed at module load. -/
def TMState.initial : TMState := ⟨[], [], 0⟩

/-- Extensional `Map.get`. -/
def mapGet (m : List (String × TransactionState)) (k : String) :
    Option TransactionState :=
  (m.find? (fun p => p.1 = k)).map Prod.snd

/-- Extensional `Map.set`: the new binding shadows and supplants any previous
binding of the key. -/
def mapSet (m : List (String × TransactionState)) (k : String)
    (v : TransactionState) : List (String × TransactionState) :=
  (k, v) :: m.filter (fun p => ¬ p.1 = k)

/-- Extensional `Map.delete`. -/
def mapDelete (m : List (String × TransactionState)) (k : String) :
    List (String × TransactionState) :=
  m.filter (fun p => ¬ p.1 = k)

/-- Embedding of `TransactionManager.startTransaction` (transactionManager.ts
lines 18–50): arm a fresh `setInterval` timer whose callback sends the
MeterValues telemetry for this transaction, then `Map.set` the session record
holding that timer handle.  `now` is the `new Date()` taken at start. -/
def startTransaction (st : TMState) (now : Int)
    (transactionId connectorId : Nat) : TMState :=
  let h := st.nextHandle
  { transactions :=
      mapSet st.transactions (natToString transactionId)
        { transactionId := transactionId
          meterValue := 0
          startedAt := now
          connectorId := connectorId
          meterValuesTimer := some h }
    activeTimers := (h, transactionId) :: st.activeTimers
    nextHandle := h + 1 }

/-- Embedding of `TransactionManager.stopTransaction` (transactionManager.ts
lines 52–58): if a session with this id exists and holds a timer handle,
`clearInterval` it (disarm that handle); then `Map.delete` the session. -/
def stopTransaction (st : TMState) (transactionId : Nat) : TMState :=
  let cleared :=
    match mapGet st.transactions (natToString transactionId) with
    | some t =>
      match t.meterValuesTimer with
      | some h => st.activeTimers.filter (fun p => ¬ p.1 = h)
      | none => st.activeTimers
    | none => st.activeTimers
  { transactions := mapDelete st.transactions (natToString transactionId)
    activeTimers := cleared
    nextHandle := st.nextHandle }

/-- Embedding of `TransactionManager.getMeterValue` (transactionManager.ts
lines 60–66): elapsed seconds since the session started, `0` for an unknown
id.  Exact rational arithmetic models the JS number computation
`(now - startedAt) / 1000`. -/
def getMeterValue (st : TMState) (now : Int) (transactionId : Nat) : ℚ :=
  match mapGet st.transactions (natToString transactionId) with
  | none => 0
  | some t => ((now - t.startedAt : ℤ) : ℚ) / 1000

/-- Left-pad of the fractional digits to width 3, as JS `toFixed(3)` renders
them. -/
def pad3 (frac : Nat) : String :=
  if frac < 10 then "00" ++ natToString frac
  else if frac < 100 then "0" ++ natToString frac
  else natToString frac

/-- Model of JS `Number.prototype.toFixed(3)` over exact rationals: the
integer `n` with `n / 1000` closest to the value, ties to the larger `n`
(ECMA-262 Number.prototype.toFixed), rendered with exactly three fractional
digits.  Exact rational arithmetic stands in for the IEEE doubles of the
source; on the values this development evaluates it at, the double
computation is exact. -/
def toFixed3 (q : ℚ) : String :=
  let n : ℤ := (q * 1000 + 1 / 2).floor
  if n < 0 then
    "-" ++ natToString ((-n).toNat / 1000) ++ "." ++ pad3 ((-n).toNat % 1000)
  else
    natToString (n.toNat / 1000) ++ "." ++ pad3 (n.toNat % 1000)

/-- One sampled value of a MeterValues telemetry frame, as built by the
`setInterval` callback. -/
structure SampledValue where
  value : String
  measurand : String
  unit : String
  deriving Repr, DecidableEq

/-- Embedding of the telemetry the periodic task emits (transactionManager.ts
lines 23–42): the sampled value of the `MeterValues` call sent for
`transactionId` when the interval fires at instant `now`, with the configured
charging power (`CHARGING_POWER_KW`, default 22).  The reported value is
`(getMeterValue(transactionId) * CHARGING_POWER_KW / 3600).toFixed(3)`. -/
def meterValuesSampledValue (st : TMState) (now : Int) (power : ℚ)
    (transactionId : Nat) : SampledValue :=
  { value := toFixed3 (getMeterValue st now transactionId * power / 3600)
    measurand := "Energy.Active.Import.Register"
    unit := "kWh" }

/-- An operation of the Transaction Simulator's public interface. -/
inductive TMOp where
  | start (transactionId connectorId : Nat)
  | stop (transactionId : Nat)
  deriving Repr, DecidableEq

/-- Apply one operation.  The instant a session starts at is irrelevant to
the session-table/timer bookkeeping, so runs fix it at 0. -/
def applyOp (st : TMState) (op : TMOp) : TMState :=
  match op with
  | .start transactionId connectorId =>
    startTransaction st 0 transactionId connectorId
  | .stop transactionId => stopTransaction st transactionId

/-- Run a sequence of operations from the freshly constructed manager. -/
def run (ops : List TMOp) : TMState :=
  ops.foldl applyOp TMState.initial

/-- A periodic telemetry emission task for `transactionId` is active: some
armed, not-yet-cleared interval timer emits for that id. -/
def timerActiveFor (st : TMState) (transactionId : Nat) : Bool :=
  st.activeTimers.any (fun p => p.2 = transactionId)

/-- A session with this transaction id is present in the session table. -/
def sessionPresent (st : TMState) (transactionId : Nat) : Bool :=
  st.transactions.any (fun p => p.2.transactionId = transactionId)

/-- Guard on operation sequences: `start` is never invoked on a transaction
id whose session is still present. -/
def noDoubleStartFrom (st : TMState) : List TMOp → Bool
  | [] => true
  | op :: rest =>
    (match op with
     | .start transactionId _ => !sessionPresent st transactionId
     | .stop _ => true) &&
    noDoubleStartFrom (applyOp st op) rest

/-- The simulator bookkeeping invariant tying armed timers to sessions: every
armed timer belongs to the session of its transaction id, which stores that
same handle; every session stores an armed timer registered for its own
transaction id and sits under its id's key; an armed handle determines its
transaction id; and every armed handle is below the allocation counter. -/
def TimerInv (st : TMState) : Prop :=
  (∀ p ∈ st.activeTimers,
    ∃ t, mapGet st.transactions (natToString p.2) = some t ∧
      t.meterValuesTimer = some p.1 ∧ t.transactionId = p.2) ∧
  (∀ e ∈ st.transactions,
    ∃ hdl, e.2.meterValuesTimer = some hdl ∧
      (hdl, e.2.transactionId) ∈ st.activeTimers ∧
      e.1 = natToString e.2.transactionId) ∧
  (∀ p ∈ st.activeTimers, ∀ q ∈ st.activeTimers, p.1 = q.1 → p.2 = q.2) ∧
  (∀ p ∈ st.activeTimers, p.1 < st.nextHandle)

end TxnMgr


namespace TxnMgr

/-- Recombining the digit list recovers the number (the formatter has a left
inverse, hence is injective). -/
theorem natDigitsAux_val (fuel : Nat) :
    ∀ n : Nat, n < fuel →
      (natDigitsAux fuel n).foldl (fun a d => 10 * a + d) 0 = n := by
  induction fuel with
  | zero => intro n hn; omega
  | succ fuel ih =>
    intro n hn
    by_cases h10 : n < 10
    · simp [natDigitsAux, h10]
    · have hpos : 0 < n := by omega
      have hdiv : n / 10 < n := Nat.div_lt_self hpos (by omega)
      have hfuel : n / 10 < fuel := by omega
      simp only [natDigitsAux, if_neg h10, List.foldl_append, ih (n / 10) hfuel,
        List.foldl_cons, List.foldl_nil]
      omega

theorem natDigits_val (n : Nat) :
    (natDigits n).foldl (fun a d => 10 * a + d) 0 = n :=
  natDigitsAux_val (n + 1) n (Nat.lt_succ_self n)

/-- Every produced digit is below 10. -/
theorem natDigitsAux_lt_ten (fuel : Nat) :
    ∀ n : Nat, ∀ d ∈ natDigitsAux fuel n, d < 10 := by
  induction fuel with
  | zero => intro n d hd; simp [natDigitsAux] at hd
  | succ fuel ih =>
    intro n d hd
    by_cases h10 : n < 10
    · simp [natDigitsAux, h10] at hd; omega
    · simp only [natDigitsAux, if_neg h10, List.mem_append,
        List.mem_singleton] at hd
      rcases hd with hd | hd
      · exact ih (n / 10) d hd
      · omega

/-- `Nat.digitChar` is injective below 10. -/
theorem digitChar_inj_lt_ten :
    ∀ a < 10, ∀ b < 10, Nat.digitChar a = Nat.digitChar b → a = b := by
  decide

/-- Mapping `Nat.digitChar` over digit lists is injective. -/
theorem map_digitChar_inj :
    ∀ l1 l2 : List Nat, (∀ d ∈ l1, d < 10) → (∀ d ∈ l2, d < 10) →
      l1.map Nat.digitChar = l2.map Nat.digitChar → l1 = l2 := by
  intro l1
  induction l1 with
  | nil => intro l2 _ _ h; cases l2 <;> simp_all
  | cons a l1 ih =>
    intro l2 h1 h2 h
    cases l2 with
    | nil => simp at h
    | cons b l2 =>
      simp only [List.map_cons, List.cons.injEq] at h
      have hab : a = b :=
        digitChar_inj_lt_ten a (h1 a (by simp)) b (h2 b (by simp)) h.1
      have htl : l1 = l2 :=
        ih l2 (fun d hd => h1 d (by simp [hd])) (fun d hd => h2 d (by simp [hd]))
          h.2
      rw [hab, htl]

/-- The transaction-id key function is injective: distinct ids never collide
in the session table. -/
theorem natToString_injective : Function.Injective natToString := by
  intro a b h
  have hdig : natDigits a = natDigits b := by
    apply map_digitChar_inj
    · exact natDigitsAux_lt_ten (a + 1) a
    · exact natDigitsAux_lt_ten (b + 1) b
    · exact congrArg String.data h
  calc a = (natDigits a).foldl (fun x d => 10 * x + d) 0 := (natDigits_val a).symm
    _ = (natDigits b).foldl (fun x d => 10 * x + d) 0 := by rw [hdig]
    _ = b := natDigits_val b

/-- A hit on the freshly set key. -/
theorem mapGet_mapSet_self (m : List (String × TransactionState)) (k : String)
    (v : TransactionState) : mapGet (mapSet m k v) k = some v := by
  simp [mapGet, mapSet, List.find?]

/-- Searching for one key is unaffected by filtering a different key out. -/
theorem find?_key_filter (m : List (String × TransactionState))
    (k k' : String) (h : k' ≠ k) :
    (m.filter (fun p => ¬ p.1 = k)).find? (fun p => p.1 = k') =
      m.find? (fun p => p.1 = k') := by
  induction m with
  | nil => rfl
  | cons e m ih =>
    by_cases he : e.1 = k
    · have hne : ¬ e.1 = k' := fun hk => h (hk ▸ he ▸ rfl : k' = k)
      rw [List.filter_cons_of_neg (by simpa using he),
        List.find?_cons_of_neg m (by simpa using hne), ih]
    · rw [List.filter_cons_of_pos (by simpa using he)]
      by_cases he' : e.1 = k'
      · rw [List.find?_cons_of_pos _ (by simpa using he'),
          List.find?_cons_of_pos _ (by simpa using he')]
      · rw [List.find?_cons_of_neg _ (by simpa using he'),
          List.find?_cons_of_neg _ (by simpa using he'), ih]

/-- Filtering a key out leaves lookups of other keys unchanged. -/
theorem mapGet_filter_ne (m : List (String × TransactionState)) (k k' : String)
    (h : k' ≠ k) : mapGet (m.filter (fun p => ¬ p.1 = k)) k' = mapGet m k' := by
  unfold mapGet
  rw [find?_key_filter m k k' h]

/-- Filtering a key out never answers for that key. -/
theorem mapGet_filter_self (m : List (String × TransactionState)) (k : String) :
    mapGet (m.filter (fun p => ¬ p.1 = k)) k = none := by
  unfold mapGet
  rw [List.find?_eq_none.mpr]
  · rfl
  · intro x hx
    have := (List.mem_filter.mp hx).2
    simpa using this

/-- An absent key means no entry carries it, so filtering it out is the
identity. -/
theorem filter_eq_self_of_mapGet_none (m : List (String × TransactionState))
    (k : String) (h : mapGet m k = none) :
    m.filter (fun p => ¬ p.1 = k) = m := by
  unfold mapGet at h
  cases hf : m.find? (fun p => p.1 = k) with
  | some e => rw [hf] at h; simp at h
  | none =>
    rw [List.filter_eq_self]
    intro e he
    have := List.find?_eq_none.mp hf e he
    simpa using this

/-- A successful lookup exposes a member entry carrying the key. -/
theorem mapGet_some_mem {m : List (String × TransactionState)} {k : String}
    {v : TransactionState} (h : mapGet m k = some v) : (k, v) ∈ m := by
  unfold mapGet at h
  cases hf : m.find? (fun p => p.1 = k) with
  | none => rw [hf] at h; simp at h
  | some e =>
    rw [hf] at h
    have hmem := List.mem_of_find?_eq_some hf
    have hkey := List.find?_some hf
    simp only [decide_eq_true_eq] at hkey
    rcases e with ⟨ek, ev⟩
    simp only [Option.map, Option.bind] at h
    cases h
    cases hkey
    exact hmem

end TxnMgr

namespace OcppVcp

/-- A successful enqueue makes the ledger answer for the call's id. -/
theorem OcppOutbox.enqueue_ok_get_self {P : Type} {o o1 : OcppOutbox P}
    {c : OcppCall P} (h : o.enqueue c = .ok o1) :
    o1.get c.messageId = some c := by
  unfold OcppOutbox.enqueue at h
  cases hg : o.get c.messageId with
  | some d => rw [hg] at h; cases h
  | none =>
    rw [hg] at h
    cases h
    simp [OcppOutbox.get]

/-- C5: for every outbound call that `send` transmits successfully (no error
escapes), the ledger answers for the call's id immediately after `send`
returns, and the recorded effects are exactly the ledger enqueue followed by
the handing of the `[2, id, action, payload]` frame to the transport — the
enqueue precedes the transmission. -/
theorem send_success_ledger_contains_id_enqueue_precedes_transmit {P : Type}
    (validateOcppRequest : Validator P) (st : VCPState P) (c : OcppCall P)
    (h : (send validateOcppRequest st c).error = none) :
    (send validateOcppRequest st c).state.outbox.get c.messageId = some c ∧
    (send validateOcppRequest st c).events =
      [VcpEvent.enqueued c.messageId,
       VcpEvent.transmitted (OcppFrame.call c.messageId c.action c.payload)] := by
  obtain ⟨ws, obox, fin, ver⟩ := st
  cases ws with
  | none => simp [send] at h
  | some u =>
    cases henq : obox.enqueue c with
    | error e => simp only [send, henq] at h; simp at h
    | ok o1 =>
      simp only [send, henq] at h ⊢
      by_cases hv : validateOcppRequest ver c.action c.payload = true
      · simp only [hv, if_true]
        exact ⟨OcppOutbox.enqueue_ok_get_self henq, by trivial⟩
      · simp only [if_neg hv] at h
        simp at h

/-- C5 witness: a concrete successful send. -/
theorem send_success_ledger_contains_id_enqueue_precedes_transmit_witness :
    (send (fun _ _ _ => true) (⟨some (), ⟨[]⟩, false, "ocpp1.6"⟩ : VCPState Nat)
        ⟨"1", "Heartbeat", 0⟩).error = none ∧
    ((send (fun _ _ _ => true) (⟨some (), ⟨[]⟩, false, "ocpp1.6"⟩ : VCPState Nat)
        ⟨"1", "Heartbeat", 0⟩).state.outbox.get "1" =
        some ⟨"1", "Heartbeat", 0⟩ ∧
     (send (fun _ _ _ => true) (⟨some (), ⟨[]⟩, false, "ocpp1.6"⟩ : VCPState Nat)
        ⟨"1", "Heartbeat", 0⟩).events =
      [VcpEvent.enqueued "1",
       VcpEvent.transmitted (OcppFrame.call "1" "Heartbeat" 0)]) :=
  ⟨by decide,
   send_success_ledger_contains_id_enqueue_precedes_transmit
     (fun _ _ _ => true) ⟨some (), ⟨[]⟩, false, "ocpp1.6"⟩ ⟨"1", "Heartbeat", 0⟩
     (by decide)⟩

/-- C10: invoking `send` while the websocket is uninitialized (before
`connect`, or after `close` deleted it) throws before the enqueue: the state
— the ledger included — is unchanged and no frame is constructed or
transmitted. -/
theorem send_without_ws_throws_ledger_unchanged {P : Type}
    (validateOcppRequest : Validator P) (st : VCPState P) (c : OcppCall P)
    (h : st.ws = none) :
    send validateOcppRequest st c =
      ⟨some VcpError.wsNotInitialized, st, []⟩ := by
  unfold send
  rw [h]

/-- C10 witness: a concrete send on a connection that was never opened. -/
theorem send_without_ws_throws_ledger_unchanged_witness :
    (⟨none, ⟨[]⟩, false, "ocpp1.6"⟩ : VCPState Nat).ws = none ∧
    send (fun _ _ _ => true) (⟨none, ⟨[]⟩, false, "ocpp1.6"⟩ : VCPState Nat)
        ⟨"1", "Heartbeat", 0⟩ =
      ⟨some VcpError.wsNotInitialized, ⟨none, ⟨[]⟩, false, "ocpp1.6"⟩, []⟩ :=
  ⟨rfl,
   send_without_ws_throws_ledger_unchanged (fun _ _ _ => true)
     ⟨none, ⟨[]⟩, false, "ocpp1.6"⟩ ⟨"1", "Heartbeat", 0⟩ rfl⟩

/-- C4 counterexample: at this concrete input — open websocket, empty
ledger, a payload the oracle rejects — the failed `send` surfaces the
schema-violation error and transmits nothing, but the entry enqueued for the
call id is NOT removed from the ledger: the ledger answers for the id after
the send although it did not before, refuting "the entry … is removed from
the Ledger" / "the Ledger is unchanged overall by a failed send". -/
theorem failed_send_leaves_ledger_entry_cex :
    ((⟨some (), ⟨[]⟩, false, "ocpp1.6"⟩ : VCPState Nat).outbox.get "1" = none) ∧
    (send (fun _ _ _ => false) (⟨some (), ⟨[]⟩, false, "ocpp1.6"⟩ : VCPState Nat)
        ⟨"1", "StartTransaction", 5⟩).error =
      some (VcpError.schemaViolation "StartTransaction") ∧
    (send (fun _ _ _ => false) (⟨some (), ⟨[]⟩, false, "ocpp1.6"⟩ : VCPState Nat)
        ⟨"1", "StartTransaction", 5⟩).state.outbox.get "1" =
      some ⟨"1", "StartTransaction", 5⟩ := by
  decide

/-- C4 (amended): for every outbound call whose payload fails schema
validation, `send` aborts before transmission — no frame is handed to the
transport and the schema-violation error surfaces to the caller — but the
entry enqueued for the call id REMAINS in the ledger (the source never
removes it on the failure path). -/
theorem failed_send_aborts_but_retains_entry {P : Type}
    (validateOcppRequest : Validator P) (st : VCPState P) (c : OcppCall P)
    (hws : st.ws = some ())
    (hfresh : st.outbox.get c.messageId = none)
    (hv : validateOcppRequest st.ocppVersion c.action c.payload = false) :
    (send validateOcppRequest st c).error =
      some (VcpError.schemaViolation c.action) ∧
    (∀ f, VcpEvent.transmitted f ∉ (send validateOcppRequest st c).events) ∧
    (send validateOcppRequest st c).state.outbox.get c.messageId = some c := by
  have henq : st.outbox.enqueue c =
      .ok ⟨(c.messageId, c) :: st.outbox.entries⟩ := by
    unfold OcppOutbox.enqueue
    rw [hfresh]
  obtain ⟨ws, obox, fin, ver⟩ := st
  cases hws
  simp only [send, henq]
  rw [if_neg (by simp [hv])]
  refine ⟨rfl, ?_, ?_⟩
  · intro f hf
    simp at hf
  · exact OcppOutbox.enqueue_ok_get_self henq

/-- C4 witness: the amended statement at the counterexample's input. -/
theorem failed_send_aborts_but_retains_entry_witness :
    ((⟨some (), ⟨[]⟩, false, "ocpp1.6"⟩ : VCPState Nat).ws = some () ∧
     (⟨some (), ⟨[]⟩, false, "ocpp1.6"⟩ : VCPState Nat).outbox.get "2" = none ∧
     (fun _ _ _ => false : Validator Nat) "ocpp1.6" "StartTransaction" 5 = false) ∧
    ((send (fun _ _ _ => false)
        (⟨some (), ⟨[]⟩, false, "ocpp1.6"⟩ : VCPState Nat)
        ⟨"2", "StartTransaction", 5⟩).error =
      some (VcpError.schemaViolation "StartTransaction") ∧
     (∀ f, VcpEvent.transmitted f ∉
        (send (fun _ _ _ => false)
          (⟨some (), ⟨[]⟩, false, "ocpp1.6"⟩ : VCPState Nat)
          ⟨"2", "StartTransaction", 5⟩).events) ∧
     (send (fun _ _ _ => false)
        (⟨some (), ⟨[]⟩, false, "ocpp1.6"⟩ : VCPState Nat)
        ⟨"2", "StartTransaction", 5⟩).state.outbox.get "2" =
      some ⟨"2", "StartTransaction", 5⟩) :=
  ⟨⟨rfl, by decide, rfl⟩,
   failed_send_aborts_but_retains_entry (fun _ _ _ => false)
     ⟨some (), ⟨[]⟩, false, "ocpp1.6"⟩ ⟨"2", "StartTransaction", 5⟩
     rfl (by decide) rfl⟩

/-- C2: at the failing input — an inbound CallResult whose id has no ledger
entry — `_onMessage` throws `Received CallResult for unknown messageId`
rather than reporting and dropping the frame: the exception escapes the
receive path (in the source it propagates out of the websocket message
handler).  No handler is invoked and the state is untouched, but the "no
exception escapes the receive path" part of the claim fails. -/
theorem unknown_callResult_throws_instead_of_drop :
    onMessage (fun _ _ _ => true) (fun _ _ _ => true)
      (⟨some (), ⟨[]⟩, false, "ocpp1.6"⟩ : VCPState Nat)
      (OcppFrame.callResult "42" 0) =
      ⟨some (VcpError.unknownCorrelation "42"),
       ⟨some (), ⟨[]⟩, false, "ocpp1.6"⟩, []⟩ := by
  decide

/-- C3: at the failing input — an inbound Call whose payload the schema
oracle rejects — `_onMessage` lets the validation exception escape the
receive path and answers nothing: no CallError frame is produced (the event
list is empty), refuting "answers the peer with a CallError response and
does not let the validation exception propagate". -/
theorem invalid_inbound_call_throws_without_callError :
    onMessage (fun _ _ _ => false) (fun _ _ _ => true)
      (⟨some (), ⟨[]⟩, false, "ocpp1.6"⟩ : VCPState Nat)
      (OcppFrame.call "7" "Reset" 0) =
      ⟨some (VcpError.schemaViolation "Reset"),
       ⟨some (), ⟨[]⟩, false, "ocpp1.6"⟩, []⟩ := by
  decide

/-- C1: at the failing input — a ledger holding the call with id "1" and the
same CallResult processed twice — the first processing invokes the handler
but leaves the entry in the ledger (the source consults the outbox with the
non-consuming `get`), so the second processing of the same CallResult finds
the entry again and invokes the handler again instead of finding no entry:
lookup-and-consume does not hold. -/
theorem callResult_entry_not_removed_second_dispatch_repeats :
    (onMessage (fun _ _ _ => true) (fun _ _ _ => true)
      (⟨some (), ⟨[("1", ⟨"1", "StartTransaction", 5⟩)]⟩, false,
        "ocpp1.6"⟩ : VCPState Nat)
      (OcppFrame.callResult "1" 9)).events =
      [VcpEvent.handleCallResult ⟨"1", "StartTransaction", 5⟩ "1" 9] ∧
    (onMessage (fun _ _ _ => true) (fun _ _ _ => true)
      (⟨some (), ⟨[("1", ⟨"1", "StartTransaction", 5⟩)]⟩, false,
        "ocpp1.6"⟩ : VCPState Nat)
      (OcppFrame.callResult "1" 9)).state.outbox.get "1" =
      some ⟨"1", "StartTransaction", 5⟩ ∧
    (onMessage (fun _ _ _ => true) (fun _ _ _ => true)
      ((onMessage (fun _ _ _ => true) (fun _ _ _ => true)
        (⟨some (), ⟨[("1", ⟨"1", "StartTransaction", 5⟩)]⟩, false,
          "ocpp1.6"⟩ : VCPState Nat)
        (OcppFrame.callResult "1" 9)).state)
      (OcppFrame.callResult "1" 9)).events =
      [VcpEvent.handleCallResult ⟨"1", "StartTransaction", 5⟩ "1" 9] := by
  decide

/-- C9 counterexample: at this concrete input, after a first `close()` has
torn the websocket down, a second `close()` throws `Trying to close a
Websocket that was not opened` — calling `close()` on an already-closed
Connection is not an error-free no-op. -/
theorem close_after_close_throws_cex :
    (close (close (⟨some (), ⟨[]⟩, false,
        "ocpp1.6"⟩ : VCPState Nat)).state).error =
      some VcpError.closeWithoutOpen := by
  decide

/-- C9 (amended): `close()` is not idempotent.  Whenever the websocket is
absent — torn down by a previous `close()`, or never opened — `close()`
throws and changes nothing; only a `close()` on an open websocket performs
the teardown (and then also exits the process). -/
theorem close_on_torn_down_ws_throws {P : Type} (st : VCPState P)
    (h : st.ws = none) :
    close st = ⟨some VcpError.closeWithoutOpen, st, []⟩ := by
  unfold close
  rw [h]

/-- C9 witness: the amended statement on a concrete closed state. -/
theorem close_on_torn_down_ws_throws_witness :
    (⟨none, ⟨[]⟩, false, "ocpp1.6"⟩ : VCPState Nat).ws = none ∧
    close (⟨none, ⟨[]⟩, false, "ocpp1.6"⟩ : VCPState Nat) =
      ⟨some VcpError.closeWithoutOpen,
       ⟨none, ⟨[]⟩, false, "ocpp1.6"⟩, []⟩ :=
  ⟨rfl, close_on_torn_down_ws_throws ⟨none, ⟨[]⟩, false, "ocpp1.6"⟩ rfl⟩

end OcppVcp

namespace TxnMgr

/-- A hit on the head key of an extensional map. -/
theorem mapGet_cons_self (m : List (String × TransactionState)) (k : String)
    (v : TransactionState) : mapGet ((k, v) :: m) k = some v := by
  simp [mapGet, List.find?]

/-- A miss on the head key falls through to the tail. -/
theorem mapGet_cons_ne (m : List (String × TransactionState)) (k k' : String)
    (v : TransactionState) (h : k' ≠ k) :
    mapGet ((k, v) :: m) k' = mapGet m k' := by
  unfold mapGet
  rw [List.find?_cons_of_neg _ (by simpa using fun hk => h hk.symm)]

/-- Stopping an id with no session under its key changes nothing. -/
theorem stopTransaction_absent (st : TMState) (transactionId : Nat)
    (h : mapGet st.transactions (natToString transactionId) = none) :
    stopTransaction st transactionId = st := by
  unfold stopTransaction mapDelete
  rw [h, filter_eq_self_of_mapGet_none _ _ h]

/-- After a stop, the id's key is gone from the session table. -/
theorem mapGet_stopTransaction_self (st : TMState) (transactionId : Nat) :
    mapGet (stopTransaction st transactionId).transactions
      (natToString transactionId) = none := by
  unfold stopTransaction mapDelete
  exact mapGet_filter_self _ _

/-- C8: `stopTransaction` on a transaction id not present in the session
table is a no-op that raises no error (the embedding is a total function and
returns the state unchanged), and stopping the same id twice in a row leaves
the session table — indeed the whole simulator state — exactly as after the
first stop. -/
theorem stop_absent_noop_and_stop_idempotent (st : TMState)
    (transactionId : Nat) :
    (mapGet st.transactions (natToString transactionId) = none →
      stopTransaction st transactionId = st) ∧
    stopTransaction (stopTransaction st transactionId) transactionId =
      stopTransaction st transactionId :=
  ⟨stopTransaction_absent st transactionId,
   stopTransaction_absent _ transactionId
     (mapGet_stopTransaction_self st transactionId)⟩

/-- C8 witness: stopping an id never started, on the fresh manager. -/
theorem stop_absent_noop_and_stop_idempotent_witness :
    mapGet TMState.initial.transactions (natToString 3) = none ∧
    (stopTransaction TMState.initial 3 = TMState.initial ∧
     stopTransaction (stopTransaction TMState.initial 3) 3 =
       stopTransaction TMState.initial 3) :=
  ⟨by decide,
   (stop_absent_noop_and_stop_idempotent TMState.initial 3).1 (by decide),
   (stop_absent_noop_and_stop_idempotent TMState.initial 3).2⟩

/-- Batteries' `Rat.floor` agrees with the floor of the ordered field ℚ. -/
theorem ratFloor_eq_intFloor (q : ℚ) : q.floor = ⌊q⌋ := by
  rw [Rat.floor_def', Rat.floor_def]

/-- C6: for every active transaction session, the periodic telemetry call
reports cumulative energy equal to elapsed-seconds × power-kW / 3600 kWh —
elapsed seconds being `(now − startedAt) / 1000` — formatted to three
decimal places, with unit `kWh`. -/
theorem meter_values_reports_energy_formula (st : TMState) (now : Int)
    (power : ℚ) (transactionId : Nat) (t : TransactionState)
    (h : mapGet st.transactions (natToString transactionId) = some t) :
    (meterValuesSampledValue st now power transactionId).value =
      toFixed3 (((now - t.startedAt : ℤ) : ℚ) / 1000 * power / 3600) ∧
    (meterValuesSampledValue st now power transactionId).unit = "kWh" := by
  unfold meterValuesSampledValue getMeterValue
  rw [h]
  exact ⟨rfl, rfl⟩

/-- C6 witness: a session at power rating 22 kW sampled exactly 3600 seconds
after its start reports the value "22.000". -/
theorem meter_values_reports_energy_formula_witness :
    mapGet (startTransaction TMState.initial 0 7 1).transactions
      (natToString 7) = some ⟨7, 0, 0, 1, some 0⟩ ∧
    (meterValuesSampledValue (startTransaction TMState.initial 0 7 1)
        3600000 22 7).value = "22.000" ∧
    (meterValuesSampledValue (startTransaction TMState.initial 0 7 1)
        3600000 22 7).unit = "kWh" := by
  have h : mapGet (startTransaction TMState.initial 0 7 1).transactions
      (natToString 7) = some ⟨7, 0, 0, 1, some 0⟩ := by decide
  have main := meter_values_reports_energy_formula
    (startTransaction TMState.initial 0 7 1) 3600000 22 7 ⟨7, 0, 0, 1, some 0⟩ h
  refine ⟨h, main.1.trans ?_, main.2⟩
  simp only [toFixed3, ratFloor_eq_intFloor]
  norm_num
  decide

end TxnMgr

namespace TxnMgr

/-- The invariant holds in the freshly constructed manager. -/
theorem timerInv_initial : TimerInv TMState.initial := by
  refine ⟨?_, ?_, ?_, ?_⟩ <;> intro p hp <;> simp [TMState.initial] at hp

/-- When no session carries an id, no table record does. -/
theorem sessionPresent_false_no_record {st : TMState} {transactionId : Nat}
    (h : sessionPresent st transactionId = false) :
    ∀ e ∈ st.transactions, e.2.transactionId ≠ transactionId := by
  intro e he
  simp only [sessionPresent, List.any_eq_false] at h
  have := h e he
  simpa using this

/-- Under the invariant, an absent session also means an absent key. -/
theorem mapGet_none_of_absent {st : TMState} {transactionId : Nat}
    (hinv : TimerInv st) (h : sessionPresent st transactionId = false) :
    mapGet st.transactions (natToString transactionId) = none := by
  obtain ⟨hA, hB, hD, hC⟩ := hinv
  cases hg : mapGet st.transactions (natToString transactionId) with
  | none => rfl
  | some t =>
    exfalso
    have hmem := mapGet_some_mem hg
    obtain ⟨hdl, htimer, hmemT, hkey⟩ := hB _ hmem
    have hid : transactionId = t.transactionId := natToString_injective hkey
    exact sessionPresent_false_no_record h _ hmem hid.symm

/-- The invariant is preserved by a start on an id with no live session. -/
theorem timerInv_start (st : TMState) (now : Int)
    (transactionId connectorId : Nat) (hinv : TimerInv st)
    (habs : sessionPresent st transactionId = false) :
    TimerInv (startTransaction st now transactionId connectorId) := by
  have hgetnone := mapGet_none_of_absent hinv habs
  obtain ⟨hA, hB, hD, hC⟩ := hinv
  have hfilter := filter_eq_self_of_mapGet_none st.transactions
    (natToString transactionId) hgetnone
  refine ⟨?_, ?_, ?_, ?_⟩
  · intro p hp
    simp only [startTransaction, mapSet, hfilter, List.mem_cons] at hp ⊢
    rcases hp with hp | hp
    · subst hp
      exact ⟨⟨transactionId, 0, now, connectorId, some st.nextHandle⟩,
        mapGet_cons_self _ _ _, rfl, rfl⟩
    · obtain ⟨t, hget, htimer, hid⟩ := hA p hp
      refine ⟨t, ?_, htimer, hid⟩
      have hne : natToString p.2 ≠ natToString transactionId := by
        intro he
        have hp2 : p.2 = transactionId := natToString_injective he
        rw [hp2] at hget
        rw [hget] at hgetnone
        cases hgetnone
      rw [mapGet_cons_ne _ _ _ _ hne]
      exact hget
  · intro e he
    simp only [startTransaction, mapSet, hfilter, List.mem_cons] at he ⊢
    rcases he with he | he
    · subst he
      exact ⟨st.nextHandle, rfl, Or.inl rfl, rfl⟩
    · obtain ⟨hdl, htimer, hmemT, hkey⟩ := hB e he
      exact ⟨hdl, htimer, Or.inr hmemT, hkey⟩
  · intro p hp q hq hpq
    simp only [startTransaction, List.mem_cons] at hp hq
    rcases hp with hp | hp <;> rcases hq with hq | hq
    · rw [hp, hq]
    · subst hp
      have h1 : st.nextHandle = q.1 := hpq
      have h2 := hC q hq
      omega
    · subst hq
      have h1 : p.1 = st.nextHandle := hpq
      have h2 := hC p hp
      omega
    · exact hD p hp q hq hpq
  · intro p hp
    simp only [startTransaction, List.mem_cons] at hp ⊢
    rcases hp with hp | hp
    · subst hp
      show st.nextHandle < st.nextHandle + 1
      omega
    · have := hC p hp
      omega

/-- The invariant is preserved by any stop. -/
theorem timerInv_stop (st : TMState) (transactionId : Nat)
    (hinv : TimerInv st) : TimerInv (stopTransaction st transactionId) := by
  cases hg : mapGet st.transactions (natToString transactionId) with
  | none =>
    rw [stopTransaction_absent st transactionId hg]
    exact hinv
  | some t =>
    obtain ⟨hA, hB, hD, hC⟩ := hinv
    obtain ⟨hdl, htimer0, hmemT0, hkey0⟩ := hB _ (mapGet_some_mem hg)
    have htimer : t.meterValuesTimer = some hdl := htimer0
    have hmemT : (hdl, t.transactionId) ∈ st.activeTimers := hmemT0
    have hkey : natToString transactionId = natToString t.transactionId := hkey0
    have hstop : stopTransaction st transactionId =
        ⟨st.transactions.filter (fun p => ¬ p.1 = natToString transactionId),
         st.activeTimers.filter (fun p => ¬ p.1 = hdl),
         st.nextHandle⟩ := by
      simp only [stopTransaction, mapDelete, hg, htimer]
    rw [hstop]
    refine ⟨?_, ?_, ?_, ?_⟩
    · intro p hp
      obtain ⟨hpmem, hpne⟩ := List.mem_filter.mp hp
      have hpne' : p.1 ≠ hdl := by simpa using hpne
      obtain ⟨t', hget', htimer', hid'⟩ := hA p hpmem
      refine ⟨t', ?_, htimer', hid'⟩
      have hne : natToString p.2 ≠ natToString transactionId := by
        intro he
        rw [he, hg] at hget'
        cases hget'
        rw [htimer] at htimer'
        cases htimer'
        exact hpne' rfl
      rw [mapGet_filter_ne _ _ _ hne]
      exact hget'
    · intro e he
      obtain ⟨hemem, hene⟩ := List.mem_filter.mp he
      have hene' : e.1 ≠ natToString transactionId := by simpa using hene
      obtain ⟨hdl', htimer', hmemT', hkey'⟩ := hB e hemem
      refine ⟨hdl', htimer', ?_, hkey'⟩
      apply List.mem_filter.mpr
      refine ⟨hmemT', ?_⟩
      simp only [decide_eq_true_eq]
      intro heq
      have hid2 : e.2.transactionId = t.transactionId :=
        hD (hdl', e.2.transactionId) hmemT' (hdl, t.transactionId) hmemT heq
      apply hene'
      rw [hkey', hid2, ← hkey]
    · intro p hp q hq hpq
      exact hD p (List.mem_filter.mp hp).1 q (List.mem_filter.mp hq).1 hpq
    · intro p hp
      exact hC p (List.mem_filter.mp hp).1

/-- Under the invariant, emission-task activity coincides with session
presence. -/
theorem timerActiveFor_eq_sessionPresent_of_inv (st : TMState)
    (hinv : TimerInv st) (transactionId : Nat) :
    timerActiveFor st transactionId = sessionPresent st transactionId := by
  obtain ⟨hA, hB, hD, hC⟩ := hinv
  by_cases ha : timerActiveFor st transactionId = true
  · rw [ha]
    simp only [timerActiveFor, List.any_eq_true] at ha
    obtain ⟨p, hp, hptx⟩ := ha
    simp only [decide_eq_true_eq] at hptx
    obtain ⟨t, hget, htimer, hid⟩ := hA p hp
    have hmem := mapGet_some_mem hget
    symm
    simp only [sessionPresent, List.any_eq_true]
    exact ⟨(natToString p.2, t), hmem, by simp [hid, hptx]⟩
  · have ha' : timerActiveFor st transactionId = false := by simpa using ha
    rw [ha']
    symm
    rw [Bool.eq_false_iff]
    intro hs
    simp only [sessionPresent, List.any_eq_true] at hs
    obtain ⟨e, he, hetx⟩ := hs
    simp only [decide_eq_true_eq] at hetx
    obtain ⟨hdl, htimer, hmemT, hkey⟩ := hB e he
    have : timerActiveFor st transactionId = true := by
      simp only [timerActiveFor, List.any_eq_true]
      exact ⟨(hdl, e.2.transactionId), hmemT, by simp [hetx]⟩
    rw [this] at ha'
    cases ha'

/-- The invariant holds along every guarded run. -/
theorem timerInv_runFrom (ops : List TMOp) :
    ∀ st, TimerInv st → noDoubleStartFrom st ops = true →
      TimerInv (ops.foldl applyOp st) := by
  induction ops with
  | nil =>
    intro st h _
    exact h
  | cons op rest ih =>
    intro st h hok
    simp only [noDoubleStartFrom, Bool.and_eq_true] at hok
    obtain ⟨hop, hrest⟩ := hok
    cases op with
    | start transactionId connectorId =>
      refine ih _ (timerInv_start st 0 transactionId connectorId h ?_) hrest
      simpa using hop
    | stop transactionId =>
      exact ih _ (timerInv_stop st transactionId h) hrest

/-- C7 counterexample: starting transaction 7 twice and then stopping it once
leaves an armed telemetry timer for id 7 (the second start overwrote the
session record holding the first interval handle, which is never cleared)
while no session with id 7 is present — refuting the claimed equivalence for
arbitrary operation sequences. -/
theorem double_start_orphans_timer_cex :
    timerActiveFor (run [TMOp.start 7 1, TMOp.start 7 1, TMOp.stop 7]) 7 =
      true ∧
    sessionPresent (run [TMOp.start 7 1, TMOp.start 7 1, TMOp.stop 7]) 7 =
      false := by
  decide

/-- C7 (amended): in every state reachable by a sequence of
startTransaction/stopTransaction operations in which `start` is never invoked
for a transaction id whose session is still present, a periodic telemetry
emission task for an id is active if and only if a session with that id is in
the session table. -/
theorem timer_active_iff_session_present_no_double_start (ops : List TMOp)
    (hok : noDoubleStartFrom TMState.initial ops = true)
    (transactionId : Nat) :
    timerActiveFor (run ops) transactionId =
      sessionPresent (run ops) transactionId :=
  timerActiveFor_eq_sessionPresent_of_inv _
    (timerInv_runFrom ops TMState.initial timerInv_initial hok) transactionId

/-- C7 witness: a concrete guarded run. -/
theorem timer_active_iff_session_present_no_double_start_witness :
    noDoubleStartFrom TMState.initial
      [TMOp.start 7 1, TMOp.stop 7, TMOp.start 8 2] = true ∧
    timerActiveFor (run [TMOp.start 7 1, TMOp.stop 7, TMOp.start 8 2]) 7 =
      sessionPresent (run [TMOp.start 7 1, TMOp.stop 7, TMOp.start 8 2]) 7 :=
  ⟨by decide,
   timer_active_iff_session_present_no_double_start _ (by decide) 7⟩

end TxnMgr
